import Mathlib

/-!
Verification development for the IPL analytics dashboard (src/app.py).

The program is a pandas pipeline over two tables: a match table and a
ball-by-ball delivery table.  We embed the rows as Lean structures, the
tables as lists of rows, and each aggregation of the source as an
executable Lean function:

* `load_data` models the `load_data` function (read both sources,
  fill the three nullable match columns with sentinel strings, left-merge
  the season onto the deliveries, and collapse any failure to the
  `(None, None)` pair returned by the `except` branch).
* `valueCounts` models `Series.value_counts()` : distinct values in
  first-occurrence order paired with their multiplicities, stably sorted
  by descending count (`sortBy countDesc`).
* the per-page aggregations (`top_winning_teams`, `toss_impact`,
  `matches_per_season`, `team_matches`, `team_wins`, `win_rate`,
  `wickets`, `top_bowlers`, `total_teams`, `teams`) are transcribed from
  the corresponding pandas expressions in src/app.py.
-/

namespace IPL

/-- A raw row of `matches.csv` before cleaning: `city`, `winner`,
`result` and `player_of_match` are nullable (`Option`). -/
structure RawMatch where
  id : Nat
  season : String
  city : Option String
  venue : String
  team1 : String
  team2 : String
  toss_winner : String
  winner : Option String
  result : Option String
  player_of_match : Option String
deriving DecidableEq

/-- A match row after the cleaning step of `load_data`: `city`, `winner`
and `player_of_match` were filled with sentinel strings, `result` keeps
its absence marker. -/
structure MatchRecord where
  id : Nat
  season : String
  city : String
  venue : String
  team1 : String
  team2 : String
  toss_winner : String
  winner : String
  result : Option String
  player_of_match : String
deriving DecidableEq

/-- A raw row of `deliveries.csv`: `player_dismissed` and
`dismissal_kind` are nullable and are never normalized. -/
structure RawDelivery where
  match_id : Nat
  batter : String
  bowler : String
  batsman_runs : Nat
  total_runs : Nat
  player_dismissed : Option String
  dismissal_kind : Option String
deriving DecidableEq

/-- A delivery row after
`deliveries.merge(matches[['id','season']], left_on='match_id', right_on='id', how='left')`.
Because the two join keys have different names, pandas keeps both: the
result carries the match table's `id` column as well as `season`, both
absent (`none`) when no match row matched. -/
structure JoinedDelivery where
  match_id : Nat
  batter : String
  bowler : String
  batsman_runs : Nat
  total_runs : Nat
  player_dismissed : Option String
  dismissal_kind : Option String
  id : Option Nat
  season : Option String
deriving DecidableEq

/-- Compact constructor for a cleaned match row (used for concrete
tables in witnesses and counterexamples). -/
def mkMatch (i : Nat) (sea ci ve t1 t2 toss wi : String) (re : Option String)
    (pom : String) : MatchRecord :=
  ⟨i, sea, ci, ve, t1, t2, toss, wi, re, pom⟩

/-- Compact constructor for a raw match row. -/
def mkRawMatch (i : Nat) (sea : String) (ci : Option String) (ve t1 t2 toss : String)
    (wi re : Option String) (pom : Option String) : RawMatch :=
  ⟨i, sea, ci, ve, t1, t2, toss, wi, re, pom⟩

/-- Compact constructor for a raw delivery row. -/
def mkDelivery (mi : Nat) (ba bo : String) (br tr : Nat)
    (pd dk : Option String) : RawDelivery :=
  ⟨mi, ba, bo, br, tr, pd, dk⟩

/-- The cleaning step of `load_data`:
`matches['city'].fillna('Unknown')`, `matches['winner'].fillna('No Result')`,
`matches['player_of_match'].fillna('Unknown')`; every other column is
copied unchanged. -/
def normalizeMatch (r : RawMatch) : MatchRecord :=
  { id := r.id
    season := r.season
    city := r.city.getD "Unknown"
    venue := r.venue
    team1 := r.team1
    team2 := r.team2
    toss_winner := r.toss_winner
    winner := r.winner.getD "No Result"
    result := r.result
    player_of_match := r.player_of_match.getD "Unknown" }

/-- Build one merged delivery row from a delivery row and the (possibly
absent) joined `id` and `season` values. -/
def joinRow (d : RawDelivery) (i : Option Nat) (s : Option String) : JoinedDelivery :=
  { match_id := d.match_id
    batter := d.batter
    bowler := d.bowler
    batsman_runs := d.batsman_runs
    total_runs := d.total_runs
    player_dismissed := d.player_dismissed
    dismissal_kind := d.dismissal_kind
    id := i
    season := s }

/-- The left outer join
`deliveries.merge(matches[['id','season']], left_on='match_id', right_on='id', how='left')`:
each delivery row is paired with every match row whose `id` equals its
`match_id` (in match-table order); a delivery with no matching match row
is kept once with absent `id` and `season`. -/
def mergeDeliveries (ds : List RawDelivery) (ms : List MatchRecord) : List JoinedDelivery :=
  ds.flatMap (fun d =>
    match ms.filter (fun m => m.id == d.match_id) with
    | [] => [joinRow d none none]
    | hits => hits.map (fun m => joinRow d (some m.id) (some m.season)))

/-- The single-match form of the left join, valid when match ids are
unique: look up the first (hence only) match row with the delivery's
`match_id`. -/
def joinOne (d : RawDelivery) (ms : List MatchRecord) : JoinedDelivery :=
  match ms.find? (fun m => m.id == d.match_id) with
  | none => joinRow d none none
  | some m => joinRow d (some m.id) (some m.season)

/-- `load_data` of src/app.py: read both sources (an `Except` input
models a read/parse failure), clean the match table, merge the season
info onto the deliveries, and on any failure return the `(None, None)`
pair of the `except` branch. -/
def load_data (msrc : Except String (List RawMatch))
    (dsrc : Except String (List RawDelivery)) :
    Option (List MatchRecord) × Option (List JoinedDelivery) :=
  match msrc, dsrc with
  | Except.ok rawMatches, Except.ok rawDeliveries =>
      let matchTable := rawMatches.map normalizeMatch
      (some matchTable, some (mergeDeliveries rawDeliveries matchTable))
  | _, _ => (none, none)

/-- The columns of `deliveries.csv` used by the dashboard. -/
def delivery_columns : List String :=
  ["match_id", "batter", "bowler", "batsman_runs", "total_runs",
   "player_dismissed", "dismissal_kind"]

/-- The columns selected from the match table for the merge:
`matches[['id','season']]`. -/
def match_join_columns : List String := ["id", "season"]

/-- The columns of the merged delivery table.  pandas `merge` with
distinct `left_on`/`right_on` key names keeps both key columns, so the
result schema is the delivery columns followed by both selected match
columns. -/
def merged_delivery_columns : List String := delivery_columns ++ match_join_columns

/-- The distinct values of a list in order of first occurrence (the
order in which a pandas hash table discovers unique values). -/
def firstDedup {α : Type} [DecidableEq α] : List α → List α
  | [] => []
  | a :: l => a :: (firstDedup l).filter (fun b => b ≠ a)

/-- The unsorted content of `Series.value_counts()`: each distinct value,
in first-occurrence order, paired with its multiplicity. -/
def valueCounts {α : Type} [DecidableEq α] (l : List α) : List (α × Nat) :=
  (firstDedup l).map (fun v => (v, l.count v))

/-- Stable insertion of `a` into `l`: `a` is placed before the first
element `b` with `le a b`. -/
def insertBy {α : Type} (le : α → α → Bool) (a : α) : List α → List α
  | [] => [a]
  | b :: l => if le a b then a :: b :: l else b :: insertBy le a l

/-- Stable insertion sort with respect to the boolean comparison `le`. -/
def sortBy {α : Type} (le : α → α → Bool) (l : List α) : List α :=
  l.foldr (insertBy le) []

/-- Comparison putting count pairs in descending count order; ties
compare as already-in-order, which makes `sortBy countDesc` stable. -/
def countDesc {α : Type} (p q : α × Nat) : Bool := decide (q.2 ≤ p.2)

/-- Codepoint-wise lexicographic order on character lists (the order
Python's `sorted` and pandas use for plain strings). -/
def charsLe : List Char → List Char → Bool
  | [], _ => true
  | _ :: _, [] => false
  | a :: as, b :: bs =>
      if a.toNat < b.toNat then true
      else if b.toNat < a.toNat then false
      else charsLe as bs

/-- Lexicographic order on strings. -/
def stringLe (a b : String) : Bool := charsLe a.data b.data

/-- Home page: `matches['winner'].value_counts().head(n)` (the source
fixes `n = 5`).  The cleaned `winner` column has no missing values, so
the sentinel "No Result" is counted like any other value. -/
def top_winning_teams (n : Nat) (ms : List MatchRecord) : List (String × Nat) :=
  (sortBy countDesc (valueCounts (ms.map (fun m => m.winner)))).take n

/-- Home page toss analysis: drop the rows whose `winner` is
"No Result", form the boolean column `toss_winner == winner`, and take
its `value_counts()`. -/
def toss_impact (ms : List MatchRecord) : List (Bool × Nat) :=
  sortBy countDesc
    (valueCounts ((ms.filter (fun m => m.winner != "No Result")).map
      (fun m => m.toss_winner == m.winner)))

/-- Home page: `matches.groupby('season').size()` — one count per
distinct season, listed in ascending season order. -/
def matches_per_season (ms : List MatchRecord) : List (String × Nat) :=
  sortBy (fun p q => stringLe p.1 q.1) (valueCounts (ms.map (fun m => m.season)))

/-- Team page: `matches[(matches['team1'] == t) | (matches['team2'] == t)]`. -/
def team_matches (t : String) (ms : List MatchRecord) : List MatchRecord :=
  ms.filter (fun m => m.team1 == t || m.team2 == t)

/-- Team page: `matches[matches['winner'] == t]`. -/
def team_wins (t : String) (ms : List MatchRecord) : List MatchRecord :=
  ms.filter (fun m => m.winner == t)

/-- Team page:
`(len(team_wins) / len(team_matches) * 100) if len(team_matches) > 0 else 0`. -/
def win_rate (t : String) (ms : List MatchRecord) : ℚ :=
  if 0 < (team_matches t ms).length then
    ((team_wins t ms).length : ℚ) / ((team_matches t ms).length : ℚ) * 100
  else 0

/-- Player page: `deliveries[deliveries['player_dismissed'].notna()]`. -/
def wickets (ds : List JoinedDelivery) : List JoinedDelivery :=
  ds.filter (fun d => d.player_dismissed.isSome)

/-- Player page:
`wickets.groupby('bowler').size().sort_values(ascending=False).head(n)`. -/
def top_bowlers (n : Nat) (ds : List JoinedDelivery) : List (String × Nat) :=
  (sortBy countDesc (valueCounts ((wickets ds).map (fun d => d.bowler)))).take n

/-- Home page "Total Teams" metric: `matches['team1'].nunique()`. -/
def total_teams (ms : List MatchRecord) : Nat :=
  (firstDedup (ms.map (fun m => m.team1))).length

/-- Team page selector: `sorted(matches['team1'].unique())`. -/
def teams (ms : List MatchRecord) : List String :=
  sortBy stringLe (firstDedup (ms.map (fun m => m.team1)))

/-! ### Generic lemmas about `firstDedup`, `valueCounts` and `sortBy` -/

theorem mem_firstDedup {α : Type} [DecidableEq α] {a : α} :
    ∀ {l : List α}, a ∈ firstDedup l ↔ a ∈ l := by
  intro l
  induction l with
  | nil => simp [firstDedup]
  | cons b l ih =>
    simp only [firstDedup, List.mem_cons, List.mem_filter, ih]
    constructor
    · rintro (rfl | ⟨h, _⟩)
      · exact Or.inl rfl
      · exact Or.inr h
    · rintro (rfl | h)
      · exact Or.inl rfl
      · by_cases hab : a = b
        · exact Or.inl hab
        · exact Or.inr ⟨h, by simpa using hab⟩

theorem nodup_firstDedup {α : Type} [DecidableEq α] :
    ∀ (l : List α), (firstDedup l).Nodup := by
  intro l
  induction l with
  | nil => simp [firstDedup]
  | cons b l ih =>
    refine List.Nodup.cons ?_ (ih.filter _)
    intro hb
    have := (List.mem_filter.mp hb).2
    simp at this

theorem firstDedup_sublist {α : Type} [DecidableEq α] :
    ∀ (l : List α), (firstDedup l).Sublist l := by
  intro l
  induction l with
  | nil => simp [firstDedup]
  | cons b l ih =>
    exact List.Sublist.cons₂ b (((firstDedup l).filter_sublist).trans ih)

theorem firstDedup_perm_dedup {α : Type} [DecidableEq α] (l : List α) :
    (firstDedup l).Perm l.dedup := by
  refine (List.perm_ext_iff_of_nodup (nodup_firstDedup l) l.nodup_dedup).mpr ?_
  intro a
  rw [mem_firstDedup, List.mem_dedup]

/-- The counts of `valueCounts` add up to the length of the list counted. -/
theorem sum_valueCounts {α : Type} [DecidableEq α] (l : List α) :
    ((valueCounts l).map (fun p => p.2)).sum = l.length := by
  have hmap : (valueCounts l).map (fun p => p.2) =
      (firstDedup l).map (fun v => l.count v) := by
    simp [valueCounts, List.map_map, Function.comp]
  have hperm : ((firstDedup l).map (fun v => l.count v)).Perm
      (l.dedup.map (fun v => l.count v)) :=
    (firstDedup_perm_dedup l).map _
  rw [hmap, hperm.sum_eq]
  simpa using List.sum_map_count_dedup_eq_length l

theorem insertBy_perm {α : Type} (le : α → α → Bool) (a : α) :
    ∀ (l : List α), (insertBy le a l).Perm (a :: l) := by
  intro l
  induction l with
  | nil => simp [insertBy]
  | cons b l ih =>
    by_cases h : le a b
    · simp [insertBy, h]
    · simp only [insertBy, if_neg h]
      exact (ih.cons b).trans (List.Perm.swap a b l)

theorem sortBy_perm {α : Type} (le : α → α → Bool) :
    ∀ (l : List α), (sortBy le l).Perm l := by
  intro l
  induction l with
  | nil => simp [sortBy]
  | cons a l ih =>
    exact (insertBy_perm le a (sortBy le l)).trans (ih.cons a)

/-- `insertBy` splits the list at the first element `b` with `le a b`. -/
theorem insertBy_eq_takeWhile {α : Type} (le : α → α → Bool) (a : α) :
    ∀ (l : List α), insertBy le a l =
      l.takeWhile (fun b => !(le a b)) ++ a :: l.dropWhile (fun b => !(le a b)) := by
  intro l
  induction l with
  | nil => simp [insertBy]
  | cons b l ih =>
    by_cases h : le a b
    · simp [insertBy, h, List.takeWhile_cons, List.dropWhile_cons]
    · simp only [insertBy, if_neg h, List.takeWhile_cons, List.dropWhile_cons]
      simp only [h, Bool.not_false, if_true, ih]
      simp

theorem insertBy_pairwise {α : Type} (le : α → α → Bool)
    (htot : ∀ a b, le a b = false → le b a = true)
    (htrans : ∀ a b c, le a b = true → le b c = true → le a c = true)
    (a : α) : ∀ {l : List α}, l.Pairwise (fun x y => le x y = true) →
    (insertBy le a l).Pairwise (fun x y => le x y = true) := by
  intro l
  induction l with
  | nil => intro _; simp [insertBy]
  | cons b l ih =>
    intro hl
    rcases List.pairwise_cons.mp hl with ⟨hb, hl2⟩
    by_cases h : le a b
    · simp only [insertBy, if_pos h]
      refine List.pairwise_cons.mpr ⟨?_, hl⟩
      intro y hy
      rcases List.mem_cons.mp hy with rfl | hy2
      · exact h
      · exact htrans a b y h (hb y hy2)
    · simp only [insertBy, if_neg h]
      refine List.pairwise_cons.mpr ⟨?_, ih hl2⟩
      intro y hy
      rcases List.mem_cons.mp ((insertBy_perm le a l).mem_iff.mp hy) with rfl | hy2
      · exact htot _ _ (by simpa using h)
      · exact hb y hy2

theorem sortBy_pairwise {α : Type} (le : α → α → Bool)
    (htot : ∀ a b, le a b = false → le b a = true)
    (htrans : ∀ a b c, le a b = true → le b c = true → le a c = true) :
    ∀ (l : List α), (sortBy le l).Pairwise (fun x y => le x y = true) := by
  intro l
  induction l with
  | nil => simp [sortBy]
  | cons a l ih => exact insertBy_pairwise le htot htrans a ih

/-- Stability of insertion with respect to the descending count order:
the sublist of entries with a fixed count is unchanged, except that the
inserted entry (when it has that count) lands in front. -/
theorem insertBy_filter_countDesc {β : Type} (a : β × Nat) (l : List (β × Nat)) (c : Nat) :
    (insertBy countDesc a l).filter (fun x => x.2 == c) =
      if a.2 == c then a :: l.filter (fun x => x.2 == c)
      else l.filter (fun x => x.2 == c) := by
  have h0 : l.takeWhile (fun b => !(countDesc a b)) ++
      l.dropWhile (fun b => !(countDesc a b)) = l :=
    List.takeWhile_append_dropWhile _ l
  have htw : ∀ x ∈ l.takeWhile (fun b => !(countDesc a b)), a.2 < x.2 := by
    intro x hx
    have hx2 := List.mem_takeWhile_imp hx
    simp only [countDesc, Bool.not_eq_true', decide_eq_false_iff_not] at hx2
    exact Nat.lt_of_not_le hx2
  have hl : l.filter (fun x => x.2 == c) =
      (l.takeWhile (fun b => !(countDesc a b))).filter (fun x => x.2 == c) ++
      (l.dropWhile (fun b => !(countDesc a b))).filter (fun x => x.2 == c) := by
    conv_lhs => rw [← h0]
    exact List.filter_append _ _
  rw [insertBy_eq_takeWhile, List.filter_append, List.filter_cons]
  by_cases hc : a.2 == c
  · have hnil : (l.takeWhile (fun b => !(countDesc a b))).filter
        (fun x => x.2 == c) = [] := by
      refine List.filter_eq_nil_iff.mpr ?_
      intro x hx
      have := htw x hx
      have hac : a.2 = c := by simpa using hc
      simp only [beq_iff_eq]
      omega
    simp [hl, hnil, hc]
  · simp [hl, hc]

/-- `sortBy countDesc` is stable: the entries carrying one fixed count
appear in the output in their input order. -/
theorem sortBy_filter_countDesc {β : Type} (l : List (β × Nat)) (c : Nat) :
    (sortBy countDesc l).filter (fun x => x.2 == c) = l.filter (fun x => x.2 == c) := by
  induction l with
  | nil => rfl
  | cons a l ih =>
    show (insertBy countDesc a (sortBy countDesc l)).filter _ = _
    rw [insertBy_filter_countDesc, ih, List.filter_cons]

theorem count_true_add_count_false (l : List Bool) :
    l.count true + l.count false = l.length := by
  induction l with
  | nil => rfl
  | cons b l ih => cases b <;> simp [List.count_cons] <;> omega

/-! ### Claim theorems -/

/-- C2: `load` normalizes exactly three MatchRecord fields — an absent
`city` becomes "Unknown", an absent `winner` becomes "No Result", an
absent `player_of_match` becomes "Unknown" — every other match field is
copied unchanged (in particular `result` keeps its absence marker), and
the delivery-side nullable fields `player_dismissed` and
`dismissal_kind` pass through the join untouched. -/
theorem load_normalization_spec (r : RawMatch) (d : RawDelivery)
    (i : Option Nat) (s : Option String) :
    (normalizeMatch r).city = r.city.getD "Unknown"
    ∧ (normalizeMatch r).winner = r.winner.getD "No Result"
    ∧ (normalizeMatch r).player_of_match = r.player_of_match.getD "Unknown"
    ∧ (normalizeMatch r).result = r.result
    ∧ (normalizeMatch r).id = r.id
    ∧ (normalizeMatch r).season = r.season
    ∧ (normalizeMatch r).venue = r.venue
    ∧ (normalizeMatch r).team1 = r.team1
    ∧ (normalizeMatch r).team2 = r.team2
    ∧ (normalizeMatch r).toss_winner = r.toss_winner
    ∧ (joinRow d i s).player_dismissed = d.player_dismissed
    ∧ (joinRow d i s).dismissal_kind = d.dismissal_kind :=
  ⟨rfl, rfl, rfl, rfl, rfl, rfl, rfl, rfl, rfl, rfl, rfl, rfl⟩

/-- C4: `winRate(t)` equals `teamWins(t).count / teamMatches(t).count * 100`
when `teamMatches(t).count > 0`, and equals `0` when
`teamMatches(t).count = 0` — the division branch is guarded by the
conditional and is not taken for an empty denominator. -/
theorem win_rate_spec (t : String) (ms : List MatchRecord) :
    (0 < (team_matches t ms).length →
      win_rate t ms =
        ((team_wins t ms).length : ℚ) / ((team_matches t ms).length : ℚ) * 100)
    ∧ ((team_matches t ms).length = 0 → win_rate t ms = 0) := by
  constructor
  · intro h
    rw [win_rate, if_pos h]
  · intro h
    rw [win_rate, if_neg (by omega)]

/-- Witness for C4: on a one-row table where team "A" plays and wins,
the ratio branch applies; on the empty table the win rate is `0`. -/
theorem win_rate_spec_witness :
    0 < (team_matches "A" [mkMatch 1 "2020" "X" "V" "A" "B" "A" "A" none "P"]).length
    ∧ win_rate "A" [mkMatch 1 "2020" "X" "V" "A" "B" "A" "A" none "P"] =
      ((team_wins "A" [mkMatch 1 "2020" "X" "V" "A" "B" "A" "A" none "P"]).length : ℚ) /
      ((team_matches "A" [mkMatch 1 "2020" "X" "V" "A" "B" "A" "A" none "P"]).length : ℚ) * 100
    ∧ win_rate "A" ([] : List MatchRecord) = 0 :=
  ⟨by decide,
   (win_rate_spec "A" _).1 (by decide),
   (win_rate_spec "A" []).2 rfl⟩

/-- C5: `tossImpact` drops the rows whose winner is "No Result",
partitions the rest by the boolean `toss_winner == winner`, and the
bucket counts add up to the number of rows that survived the filter. -/
theorem toss_impact_spec (ms : List MatchRecord) :
    ((toss_impact ms).map (fun p => p.2)).sum =
      (ms.filter (fun m => m.winner != "No Result")).length
    ∧ ((ms.filter (fun m => m.winner != "No Result")).map
          (fun m => m.toss_winner == m.winner)).count true
      + ((ms.filter (fun m => m.winner != "No Result")).map
          (fun m => m.toss_winner == m.winner)).count false
      = (ms.filter (fun m => m.winner != "No Result")).length := by
  constructor
  · have hperm :=
      ((sortBy_perm countDesc
        (valueCounts ((ms.filter (fun m => m.winner != "No Result")).map
          (fun m => m.toss_winner == m.winner)))).map (fun p => p.2)).sum_eq
    rw [toss_impact, hperm, sum_valueCounts, List.length_map]
  · rw [count_true_add_count_false, List.length_map]

/-- C7: the per-season match counts of `matchesPerSeason` add up to the
number of rows of the match table. -/
theorem matches_per_season_spec (ms : List MatchRecord) :
    ((matches_per_season ms).map (fun p => p.2)).sum = ms.length := by
  have hperm :=
    ((sortBy_perm (fun p q => stringLe p.1 q.1)
      (valueCounts (ms.map (fun m => m.season)))).map (fun p => p.2)).sum_eq
  rw [matches_per_season, hperm, sum_valueCounts, List.length_map]

/-- C9: `load` turns any read failure into the single error value
`(none, none)` instead of propagating it, and in every outcome the two
tables are available or unavailable together — one present and one
absent is impossible. -/
theorem load_data_spec (msrc : Except String (List RawMatch))
    (dsrc : Except String (List RawDelivery)) :
    ((load_data msrc dsrc).1.isSome = (load_data msrc dsrc).2.isSome)
    ∧ (∀ e, msrc = Except.error e → load_data msrc dsrc = (none, none))
    ∧ (∀ e, dsrc = Except.error e → load_data msrc dsrc = (none, none)) := by
  refine ⟨?_, ?_, ?_⟩ <;> cases msrc <;> cases dsrc <;> simp [load_data]

/-- Witness for C9: a failed read of the match source yields the error
pair with both tables absent. -/
theorem load_data_spec_witness :
    load_data (Except.error "missing matches file") (Except.ok ([] : List RawDelivery)) =
      (none, none) :=
  (load_data_spec _ _).2.1 "missing matches file" rfl

/-- C6 counterexample: nothing in the code ties `winner` to the two
playing teams.  On the table below, team "C" is a valid team identifier
(it occurs in `team1` and is selectable), yet it is recorded as the
winner of a match it did not play, so `teamWins("C")` has two rows while
`teamMatches("C")` has only one. -/
theorem team_wins_gt_team_matches_cex :
    "C" ∈ ([mkMatch 1 "2020" "X" "V" "A" "B" "A" "C" none "P",
      mkMatch 2 "2020" "X" "V" "C" "A" "C" "C" none "P"].map (fun m => m.team1))
    ∧ "C" ∈ teams [mkMatch 1 "2020" "X" "V" "A" "B" "A" "C" none "P",
      mkMatch 2 "2020" "X" "V" "C" "A" "C" "C" none "P"]
    ∧ (team_matches "C" [mkMatch 1 "2020" "X" "V" "A" "B" "A" "C" none "P",
        mkMatch 2 "2020" "X" "V" "C" "A" "C" "C" none "P"]).length <
      (team_wins "C" [mkMatch 1 "2020" "X" "V" "A" "B" "A" "C" none "P",
        mkMatch 2 "2020" "X" "V" "C" "A" "C" "C" none "P"]).length := by
  decide

/-- C6 (amended): on every table in which each row won by `t` lists `t`
as `team1` or `team2`, `teamWins(t)` has at most as many rows as
`teamMatches(t)`. -/
theorem team_wins_le_team_matches (t : String) (ms : List MatchRecord)
    (h : ∀ m ∈ ms, m.winner = t → m.team1 = t ∨ m.team2 = t) :
    (team_wins t ms).length ≤ (team_matches t ms).length := by
  rw [team_wins, team_matches, ← List.countP_eq_length_filter,
    ← List.countP_eq_length_filter]
  refine List.countP_mono_left ?_
  intro m hm hw
  have hwt : m.winner = t := by simpa using hw
  rcases h m hm hwt with h1 | h2
  · simp [h1]
  · simp [h2]

/-- Witness for the amended C6: a regular one-row table where the winner
is one of the playing teams. -/
theorem team_wins_le_team_matches_witness :
    (team_wins "A" [mkMatch 1 "2020" "X" "V" "A" "B" "A" "A" none "P"]).length ≤
      (team_matches "A" [mkMatch 1 "2020" "X" "V" "A" "B" "A" "A" none "P"]).length :=
  team_wins_le_team_matches "A" _ (by decide)

/-- C8: `topWicketTakers` keeps exactly the delivery rows whose
`player_dismissed` is present, credits every kept row to its `bowler`
(the count for a bowler is the number of deliveries with a dismissal on
record and that bowler), and applies no dismissal-kind filtering:
rewriting `dismissal_kind` arbitrarily (e.g. marking every row a
run-out) leaves the result unchanged. -/
theorem top_bowlers_spec (ds : List JoinedDelivery) (n : Nat) (b : String)
    (f : JoinedDelivery → Option String) :
    (∀ d, d ∈ wickets ds → d.player_dismissed.isSome = true)
    ∧ ((wickets ds).map (fun d => d.bowler)).count b
        = ds.countP (fun d => (d.bowler == b) && d.player_dismissed.isSome)
    ∧ top_bowlers n (ds.map (fun d => { d with dismissal_kind := f d }))
        = top_bowlers n ds := by
  refine ⟨?_, ?_, ?_⟩
  · intro d hd
    exact (List.mem_filter.mp hd).2
  · rw [List.count_eq_countP, List.countP_map, wickets, List.countP_filter]
    rfl
  · have hpw : ((fun d : JoinedDelivery => d.player_dismissed.isSome) ∘
        (fun d => { d with dismissal_kind := f d })) =
        (fun d : JoinedDelivery => d.player_dismissed.isSome) := rfl
    have hbw : ((fun d : JoinedDelivery => d.bowler) ∘
        (fun d => { d with dismissal_kind := f d })) =
        (fun d : JoinedDelivery => d.bowler) := rfl
    simp only [top_bowlers, wickets, List.filter_map, List.map_map, hpw, hbw]

/-- Witness for C8: a two-delivery table where only the run-out ball has
a dismissal; bowler "B" is credited exactly that ball. -/
theorem top_bowlers_spec_witness :
    ((wickets [joinRow (mkDelivery 1 "X" "B" 0 0 (some "P") (some "run out")) (some 1) (some "2020"),
        joinRow (mkDelivery 1 "Y" "B" 4 4 none none) (some 1) (some "2020")]).map
      (fun d => d.bowler)).count "B"
      = ([joinRow (mkDelivery 1 "X" "B" 0 0 (some "P") (some "run out")) (some 1) (some "2020"),
          joinRow (mkDelivery 1 "Y" "B" 4 4 none none) (some 1) (some "2020")]).countP
        (fun d => (d.bowler == "B") && d.player_dismissed.isSome)
    ∧ ((wickets [joinRow (mkDelivery 1 "X" "B" 0 0 (some "P") (some "run out")) (some 1) (some "2020"),
        joinRow (mkDelivery 1 "Y" "B" 4 4 none none) (some 1) (some "2020")]).map
      (fun d => d.bowler)).count "B" = 1 :=
  ⟨(top_bowlers_spec _ 3 "B" (fun _ => none)).2.1, by decide⟩

/-- C10: the "Total Teams" metric and the team selector are computed
from the `team1` column alone: both are invariant under rewriting the
`team2` column arbitrarily, the metric counts exactly the selectable
teams, and an identifier absent from `team1` is never selectable. -/
theorem teams_from_team1_spec (ms : List MatchRecord) (f : MatchRecord → String)
    (t : String) :
    teams (ms.map (fun m => { m with team2 := f m })) = teams ms
    ∧ total_teams (ms.map (fun m => { m with team2 := f m })) = total_teams ms
    ∧ total_teams ms = (teams ms).length
    ∧ (t ∉ ms.map (fun m => m.team1) → t ∉ teams ms) := by
  have hmap : (ms.map (fun m => { m with team2 := f m })).map (fun m => m.team1)
      = ms.map (fun m => m.team1) := by
    induction ms with
    | nil => rfl
    | cons m ms ih => simp only [List.map_cons, ih]
  refine ⟨?_, ?_, ?_, ?_⟩
  · simp only [teams, hmap]
  · simp only [total_teams, hmap]
  · simp only [total_teams, teams, (sortBy_perm stringLe _).length_eq]
  · intro hnot hmem
    exact hnot (mem_firstDedup.mp ((sortBy_perm stringLe _).mem_iff.mp hmem))

/-- Witness for C10: "B" appears only as `team2` of the single row, so
it is not a selectable team. -/
theorem teams_from_team1_spec_witness :
    "B" ∉ teams [mkMatch 1 "2020" "X" "V" "A" "B" "A" "A" none "P"] :=
  (teams_from_team1_spec [mkMatch 1 "2020" "X" "V" "A" "B" "A" "A" none "P"]
    (fun _ => "A") "B").2.2.2 (by decide)

/-- C1: `topWinningTeams(n)` returns `min n (distinct winner values)`
buckets, sorted descending by count; the buckets sharing any fixed count
appear as a subsequence of the first-occurrence order of the winner
values (stability); and the sentinel "No Result" is an ordinary bucket:
whenever it occurs in the winner column and `n` is large enough, its
bucket is in the result with the full count. -/
theorem top_winning_teams_spec (ms : List MatchRecord) (n : Nat) :
    (top_winning_teams n ms).length
      = min n (firstDedup (ms.map (fun m => m.winner))).length
    ∧ (top_winning_teams n ms).Pairwise (fun p q => q.2 ≤ p.2)
    ∧ (∀ c, (((top_winning_teams n ms).filter (fun p => p.2 == c)).map
        Prod.fst).Sublist (firstDedup (ms.map (fun m => m.winner))))
    ∧ ("No Result" ∈ ms.map (fun m => m.winner) →
        (firstDedup (ms.map (fun m => m.winner))).length ≤ n →
        ("No Result", (ms.map (fun m => m.winner)).count "No Result")
          ∈ top_winning_teams n ms) := by
  have h1 : (sortBy countDesc (valueCounts (ms.map (fun m => m.winner)))).length
      = (firstDedup (ms.map (fun m => m.winner))).length := by
    rw [(sortBy_perm countDesc _).length_eq, valueCounts, List.length_map]
  refine ⟨?_, ?_, ?_, ?_⟩
  · rw [top_winning_teams, List.length_take, h1]
  · have htot : ∀ a b : String × Nat, countDesc a b = false → countDesc b a = true := by
      intro a b hab
      simp only [countDesc, decide_eq_false_iff_not, Nat.not_le] at hab
      simp only [countDesc, decide_eq_true_eq]
      omega
    have htrans : ∀ a b c : String × Nat,
        countDesc a b = true → countDesc b c = true → countDesc a c = true := by
      intro a b c hab hbc
      simp only [countDesc, decide_eq_true_eq] at hab hbc ⊢
      omega
    have hsorted := sortBy_pairwise countDesc htot htrans
      (valueCounts (ms.map (fun m => m.winner)))
    have hsorted2 : (sortBy countDesc
        (valueCounts (ms.map (fun m => m.winner)))).Pairwise
        (fun p q : String × Nat => q.2 ≤ p.2) := by
      refine hsorted.imp ?_
      intro p q hpq
      simpa [countDesc] using hpq
    exact List.Pairwise.sublist (List.take_sublist n _) hsorted2
  · intro c
    have hsub1 : (((top_winning_teams n ms).filter (fun p => p.2 == c))).Sublist
        ((sortBy countDesc (valueCounts (ms.map (fun m => m.winner)))).filter
          (fun p => p.2 == c)) :=
      (List.take_sublist n _).filter _
    rw [sortBy_filter_countDesc] at hsub1
    have hvc : ((valueCounts (ms.map (fun m => m.winner))).filter
        (fun p => p.2 == c)).map Prod.fst
        = (firstDedup (ms.map (fun m => m.winner))).filter
            (fun v => (ms.map (fun m => m.winner)).count v == c) := by
      rw [valueCounts, List.filter_map, List.map_map]
      have hid : (Prod.fst ∘ fun v : String =>
          (v, (ms.map (fun m => m.winner)).count v)) = fun v => v := rfl
      rw [hid, List.map_id']
      rfl
    have hsub2 := hsub1.map Prod.fst
    rw [hvc] at hsub2
    exact hsub2.trans (List.filter_sublist _)
  · intro hmem hlen
    have hvcmem : ("No Result", (ms.map (fun m => m.winner)).count "No Result")
        ∈ valueCounts (ms.map (fun m => m.winner)) := by
      rw [valueCounts]
      exact List.mem_map_of_mem _ (mem_firstDedup.mpr hmem)
    have hsmem := (sortBy_perm countDesc _).mem_iff.mpr hvcmem
    have htake : top_winning_teams n ms
        = sortBy countDesc (valueCounts (ms.map (fun m => m.winner))) := by
      rw [top_winning_teams]
      exact List.take_of_length_le (by rw [h1]; exact hlen)
    rw [htake]
    exact hsmem

/-- Witness for C1 (Scenario A of the spec): after normalization the
two-row table has winner column `["A", "No Result"]`, and
`topWinningTeams(5)` contains the bucket `("No Result", 1)`. -/
theorem top_winning_teams_spec_witness :
    "No Result" ∈ ([normalizeMatch (mkRawMatch 1 "2020" (some "X") "V" "A" "B" "A" (some "A") none (some "P")),
      normalizeMatch (mkRawMatch 2 "2020" (some "X") "V" "A" "B" "A" none none (some "P"))].map
        (fun m => m.winner))
    ∧ (([normalizeMatch (mkRawMatch 1 "2020" (some "X") "V" "A" "B" "A" (some "A") none (some "P")),
      normalizeMatch (mkRawMatch 2 "2020" (some "X") "V" "A" "B" "A" none none (some "P"))].map
        (fun m => m.winner)).count "No Result") = 1
    ∧ ("No Result", 1) ∈ top_winning_teams 5
        [normalizeMatch (mkRawMatch 1 "2020" (some "X") "V" "A" "B" "A" (some "A") none (some "P")),
         normalizeMatch (mkRawMatch 2 "2020" (some "X") "V" "A" "B" "A" none none (some "P"))] := by
  refine ⟨by decide, by decide, ?_⟩
  have h := (top_winning_teams_spec
    [normalizeMatch (mkRawMatch 1 "2020" (some "X") "V" "A" "B" "A" (some "A") none (some "P")),
     normalizeMatch (mkRawMatch 2 "2020" (some "X") "V" "A" "B" "A" none none (some "P"))] 5).2.2.2
    (by decide) (by decide)
  simpa using h

/-- When the match ids are unique, filtering the match table by one id
returns exactly the first (hence only) hit of `find?`. -/
theorem filter_id_eq_find (ms : List MatchRecord) (k : Nat)
    (h : (ms.map (fun m => m.id)).Nodup) :
    ms.filter (fun m => m.id == k) = (ms.find? (fun m => m.id == k)).toList := by
  induction ms with
  | nil => rfl
  | cons m rest ih =>
    rw [List.map_cons, List.nodup_cons] at h
    by_cases hm : (m.id == k) = true
    · have hk : m.id = k := by simpa using hm
      have hnil : rest.filter (fun x => x.id == k) = [] := by
        refine List.filter_eq_nil_iff.mpr ?_
        intro x hx hxk
        have hxk2 : x.id = k := by simpa using hxk
        exact h.1 (List.mem_map.mpr ⟨x, hx, by rw [hxk2, hk]⟩)
      have hfind : List.find? (fun x => x.id == k) (m :: rest) = some m := by
        apply List.find?_cons_of_pos
        exact hm
      rw [List.filter_cons, if_pos hm, hnil, hfind, Option.toList_some]
    · have hfind : List.find? (fun x => x.id == k) (m :: rest)
          = List.find? (fun x => x.id == k) rest := by
        apply List.find?_cons_of_neg
        exact hm
      rw [List.filter_cons, if_neg hm, hfind, ih h.2]

/-- A `flatMap` whose body always returns a singleton is a `map`. -/
theorem flatMap_singleton_eq_map {α β : Type} (g : α → List β) (f : α → β)
    (h : ∀ a, g a = [f a]) : ∀ (l : List α), l.flatMap g = l.map f := by
  intro l
  induction l with
  | nil => rfl
  | cons a l ih => rw [List.flatMap_cons, h a, ih, List.map_cons, List.singleton_append]

/-- C3 counterexample: the merge does not add only the `season` column.
Because the join keys have different names (`match_id` vs `id`), pandas
keeps both key columns, so the merged schema gains `id` as well as
`season`; on a concrete one-row join the merged row carries the match
table's `id` value. -/
theorem merge_adds_id_column_cex :
    merged_delivery_columns.filter (fun c => !(delivery_columns.contains c))
      ≠ ["season"]
    ∧ (mergeDeliveries [mkDelivery 1 "X" "B" 4 4 none none]
        [mkMatch 1 "2020" "C" "V" "A" "B" "A" "A" none "P"]).map (fun r => r.id)
      = [some 1] :=
  ⟨by decide, rfl⟩

/-- C3 (amended): when match ids are unique, the merge is a left outer
join on `match_id = id` producing exactly one row per delivery; the
joined row keeps every delivery field unchanged and gains exactly the
two columns `id` and `season` of the selected match sub-table, both
absent when no match row has the delivery's `match_id`. -/
theorem merge_left_join_spec (ds : List RawDelivery) (ms : List MatchRecord)
    (h : (ms.map (fun m => m.id)).Nodup) :
    mergeDeliveries ds ms = ds.map (fun d => joinOne d ms)
    ∧ (mergeDeliveries ds ms).length = ds.length
    ∧ (∀ d : RawDelivery,
        (joinOne d ms).match_id = d.match_id
        ∧ (joinOne d ms).batter = d.batter
        ∧ (joinOne d ms).bowler = d.bowler
        ∧ (joinOne d ms).batsman_runs = d.batsman_runs
        ∧ (joinOne d ms).total_runs = d.total_runs
        ∧ (joinOne d ms).player_dismissed = d.player_dismissed
        ∧ (joinOne d ms).dismissal_kind = d.dismissal_kind
        ∧ (joinOne d ms).id
            = (ms.find? (fun m => m.id == d.match_id)).map (fun m => m.id)
        ∧ (joinOne d ms).season
            = (ms.find? (fun m => m.id == d.match_id)).map (fun m => m.season))
    ∧ merged_delivery_columns = delivery_columns ++ ["id", "season"] := by
  have hrow : ∀ d : RawDelivery,
      (match ms.filter (fun m => m.id == d.match_id) with
        | [] => [joinRow d none none]
        | hits => hits.map (fun m => joinRow d (some m.id) (some m.season)))
      = [joinOne d ms] := by
    intro d
    rw [filter_id_eq_find ms d.match_id h]
    cases hf : ms.find? (fun m => m.id == d.match_id) with
    | none => simp [joinOne, hf]
    | some m => simp [joinOne, hf]
  have hmain : mergeDeliveries ds ms = ds.map (fun d => joinOne d ms) :=
    flatMap_singleton_eq_map _ _ hrow ds
  refine ⟨hmain, ?_, ?_, rfl⟩
  · rw [hmain, List.length_map]
  · intro d
    cases hf : ms.find? (fun m => m.id == d.match_id) with
    | none => simp [joinOne, hf, joinRow]
    | some m => simp [joinOne, hf, joinRow]

/-- Witness for the amended C3: a unique-id match table joined against
two deliveries (one matched, one unmatched) yields one output row per
delivery, with the unmatched one keeping absent `id` and `season`. -/
theorem merge_left_join_spec_witness :
    (([mkMatch 1 "2020" "C" "V" "A" "B" "A" "A" none "P"].map (fun m => m.id)).Nodup)
    ∧ (mergeDeliveries
        [mkDelivery 1 "X" "B" 4 4 none none, mkDelivery 7 "Y" "B" 0 0 none none]
        [mkMatch 1 "2020" "C" "V" "A" "B" "A" "A" none "P"]).length = 2 := by
  refine ⟨by decide, ?_⟩
  have h2 := (merge_left_join_spec
    [mkDelivery 1 "X" "B" 4 4 none none, mkDelivery 7 "Y" "B" 0 0 none none]
    [mkMatch 1 "2020" "C" "V" "A" "B" "A" "A" none "P"] (by decide)).2.1
  simpa using h2

end IPL
